import Mathlib

/-!
# Winograd F(2,3) host pipeline (`winograd_gpu.cpp`, `winograd_gpu_version2.cpp`)

A shallow embedding of the host program of the repository: the constant transform
matrices, the shape validation and tile geometry of `main`, the work-size helper `gws`,
the device buffer sizes, the command sequence submitted to the queue, the image loader,
the output header and the operation count of `report_winograd_statistics`.

Conventions.
* A C++ `int` is modelled by an `Int` in the 32-bit range; `/` and `%` of C++ are
  `Int.tdiv` and `Int.tmod` (truncation towards zero).  In the definitions that embed the
  program (`main`, `geometry_int32`, `gws_int32`, `flop_int32`, the work sizes, the created
  buffers) every `int` operation is reduced to 32 bits with `wrap32` and every `size_t`
  value to 64 bits with `size_t_of`.  `geometry`, `gws`, `flop` and `bufferBytes` are the
  same expressions on the mathematical integers; they serve as the exact values the 32-bit
  evaluation is compared with.
* `float` values are modelled by rationals; every constant of the program (`0.5`, `1.0`,
  ...) is exactly representable.
* The two programs share their text up to the OpenCL binding that is used; where they
  differ the definition takes a `Version`.
-/

namespace Winograd

/-! ## Preprocessor constants -/

/-- Output tile edge: `#define m 2`. -/
def m : Int := 2

/-- Filter edge: `#define r 3`. -/
def r : Int := 3

/-- Transform-domain tile edge: `#define alpha 4`. -/
def alpha : Int := 4

/-- The byte size of a `float`: `sizeof(float)`. -/
def sizeof_float : Int := 4

/-- The two host programs of the repository. -/
inductive Version where
  | v1
  | v2
  deriving DecidableEq, Repr

/-! ## Machine integers -/

/-- The value of a 32-bit two's complement `int` holding the mathematical integer `x`. -/
def wrap32 (x : Int) : Int :=
  (x + 2 ^ 31) % 2 ^ 32 - 2 ^ 31

/-- The largest value of a 32-bit `int`. -/
def INT_MAX : Int := 2 ^ 31 - 1

/-- The smallest value of a 32-bit `int`. -/
def INT_MIN : Int := -(2 ^ 31)

/-- The product of two `int` values in 32-bit arithmetic. -/
def mul32 (a b : Int) : Int := wrap32 (a * b)

/-- The sum of two `int` values in 32-bit arithmetic. -/
def add32 (a b : Int) : Int := wrap32 (a + b)

/-- The difference of two `int` values in 32-bit arithmetic. -/
def sub32 (a b : Int) : Int := wrap32 (a - b)

/-- The value of a 64-bit `size_t` (`cl::size_type`) holding the integer `x`: the
conversion of an `int` to `size_t`, and the result of `size_t` arithmetic, which is
arithmetic modulo `2^64` (reducing once at the end gives the same value as reducing after
every operation). -/
def size_t_of (x : Int) : Int :=
  x % 2 ^ 64

/-! ## Work sizes: `gws` -/

/-- The function `gws` of both programs, on mathematical integers:
`if (global_size % local_size != 0) return (global_size + local_size) / local_size * local_size;
else return global_size;`. -/
def gws (global_size local_size : Int) : Int :=
  if Int.tmod global_size local_size ≠ 0 then
    Int.tdiv (global_size + local_size) local_size * local_size
  else
    global_size

/-- The function `gws` evaluated in 32-bit `int` arithmetic: the sum and the product are
reduced to 32 bits. -/
def gws_int32 (global_size local_size : Int) : Int :=
  if Int.tmod global_size local_size ≠ 0 then
    wrap32 (Int.tdiv (wrap32 (global_size + local_size)) local_size * local_size)
  else
    global_size

/-! ## Shape validation and tile geometry of `main` -/

/-- The flag `valid` of `main` after the two parity tests:
`if (H % 2 != 0) valid = false; if (W % 2 != 0) valid = false;`. -/
def valid (H W : Int) : Bool :=
  let v := true
  let v := if Int.tmod H 2 ≠ 0 then false else v
  let v := if Int.tmod W 2 ≠ 0 then false else v
  v

/-- The function `ceil` of `math.h` applied to an `int` expression: the argument is
converted to a floating-point number, rounded up, and the result converted back to `int`. -/
def ceil_of_int (x : Int) : Int :=
  Int.ceil (x : ℚ)

/-- The tile geometry computed by `main`. -/
structure Geometry where
  out_H : Int
  out_W : Int
  num_h_tiles : Int
  num_w_tiles : Int
  P : Int
  deriving DecidableEq, Repr

/-- The geometry statements of `main` on the mathematical integers:
`out_H = H - r + 1; out_W = W - r + 1; num_h_tiles = ceil(out_H/m);
num_w_tiles = ceil(out_W/m); P = num_h_tiles * num_w_tiles;`.  The values `main` computes
are those of `geometry_int32`. -/
def geometry (H W : Int) : Geometry :=
  let out_H := H - r + 1
  let out_W := W - r + 1
  let num_h_tiles := ceil_of_int (Int.tdiv out_H m)
  let num_w_tiles := ceil_of_int (Int.tdiv out_W m)
  let P := num_h_tiles * num_w_tiles
  { out_H := out_H, out_W := out_W, num_h_tiles := num_h_tiles,
    num_w_tiles := num_w_tiles, P := P }

/-- The geometry statements of `main` as the program evaluates them, every `int` operation
reduced to 32 bits: `out_H = H - r + 1; out_W = W - r + 1; num_h_tiles = ceil(out_H/m);
num_w_tiles = ceil(out_W/m); P = num_h_tiles * num_w_tiles;`. -/
def geometry_int32 (H W : Int) : Geometry :=
  let out_H := add32 (sub32 H r) 1
  let out_W := add32 (sub32 W r) 1
  let num_h_tiles := ceil_of_int (Int.tdiv out_H m)
  let num_w_tiles := ceil_of_int (Int.tdiv out_W m)
  let P := mul32 num_h_tiles num_w_tiles
  { out_H := out_H, out_W := out_W, num_h_tiles := num_h_tiles,
    num_w_tiles := num_w_tiles, P := P }

/-! ## Device buffers of `main` -/

/-- The byte sizes passed to the nine buffer creations of `main`. -/
structure BufferBytes where
  g_filters : Int
  g_data : Int
  g_G : Int
  g_B : Int
  g_A : Int
  g_U : Int
  g_V : Int
  g_M : Int
  g_Y : Int
  deriving DecidableEq, Repr

/-- The size arguments of the buffer creations of `main` on the mathematical integers (the
values `main` passes are those of `createdBufferBytes`), as written there:
`sizeof(float)*K*C*3*3`, `sizeof(float)*C*H*W`, `sizeof(float)*alpha*r`,
`sizeof(float)*alpha*alpha`, `sizeof(float)*alpha*m`, `sizeof(float)*K*C*alpha*alpha`,
`sizeof(float)*C*P*alpha*alpha`, `sizeof(float)*K*P*alpha*alpha`,
`sizeof(float)*K*out_H*out_W`. -/
def bufferBytes (K C H W : Int) : BufferBytes :=
  let geo := geometry H W
  { g_filters := sizeof_float * K * C * 3 * 3
    g_data := sizeof_float * C * H * W
    g_G := sizeof_float * alpha * r
    g_B := sizeof_float * alpha * alpha
    g_A := sizeof_float * alpha * m
    g_U := sizeof_float * K * C * alpha * alpha
    g_V := sizeof_float * C * geo.P * alpha * alpha
    g_M := sizeof_float * K * geo.P * alpha * alpha
    g_Y := sizeof_float * K * geo.out_H * geo.out_W }

/-- The byte sizes of the nine buffer creations as `main` evaluates them: the products are
`size_t` products (`sizeof(float)` is a `size_t`), the `int` operands `K`, `C`, `H`, `W`, `P`,
`out_H`, `out_W` are converted to `size_t`, and `P`, `out_H`, `out_W` are the 32-bit values of
the geometry. -/
def createdBufferBytes (K C H W : Int) : BufferBytes :=
  let geo := geometry_int32 H W
  { g_filters := size_t_of (sizeof_float * K * C * 3 * 3)
    g_data := size_t_of (sizeof_float * C * H * W)
    g_G := size_t_of (sizeof_float * alpha * r)
    g_B := size_t_of (sizeof_float * alpha * alpha)
    g_A := size_t_of (sizeof_float * alpha * m)
    g_U := size_t_of (sizeof_float * K * C * alpha * alpha)
    g_V := size_t_of (sizeof_float * C * geo.P * alpha * alpha)
    g_M := size_t_of (sizeof_float * K * geo.P * alpha * alpha)
    g_Y := size_t_of (sizeof_float * K * geo.out_H * geo.out_W) }

/-! ## Work sizes of the four kernels -/

/-- The value an entry `gws(global_size, local_size)` of a work-size list has: the `int`
result of the 32-bit evaluation converted to `size_t` (by the return type `cl::size_type` in
`winograd_gpu_version2.cpp`, by the initialisation of a `size_t` array in `winograd_gpu.cpp`). -/
def gws_size_t (global_size local_size : Int) : Int :=
  size_t_of (gws_int32 global_size local_size)

/-- `global_work_size_U = {gws(K,8), gws(C,4)}`. -/
def global_work_size_U (K C : Int) : List Int := [gws_size_t K 8, gws_size_t C 4]

/-- `local_work_size_U = {8, 4}`. -/
def local_work_size_U : List Int := [8, 4]

/-- `global_work_size_V = {gws(C, 4), gws(num_h_tiles, 4), gws(num_w_tiles, 4)}`. -/
def global_work_size_V (C : Int) (geo : Geometry) : List Int :=
  [gws_size_t C 4, gws_size_t geo.num_h_tiles 4, gws_size_t geo.num_w_tiles 4]

/-- `local_work_size_V = {4, 4, 4}`. -/
def local_work_size_V : List Int := [4, 4, 4]

/-- The variable `local_M = 8` of `main`. -/
def local_M : Int := 8

/-- `global_work_size_M = {gws(K, local_M), gws(P, local_M)}`. -/
def global_work_size_M (K : Int) (geo : Geometry) : List Int :=
  [gws_size_t K local_M, gws_size_t geo.P local_M]

/-- `local_work_size_M = {local_M, local_M}`. -/
def local_work_size_M : List Int := [local_M, local_M]

/-- `global_work_size_Y = {gws(K, 2), gws(num_h_tiles, 8), gws(num_w_tiles, 8)}`. -/
def global_work_size_Y (K : Int) (geo : Geometry) : List Int :=
  [gws_size_t K 2, gws_size_t geo.num_h_tiles 8, gws_size_t geo.num_w_tiles 8]

/-- `local_work_size_Y = {2, 8, 8}`. -/
def local_work_size_Y : List Int := [2, 8, 8]

/-- The nine device buffers of `main`. -/
inductive Buffer where
  | g_filters
  | g_data
  | g_G
  | g_B
  | g_A
  | g_U
  | g_V
  | g_M
  | g_Y
  deriving DecidableEq, Repr

/-- The four kernels named in `kernel_names`. -/
inductive Kernel where
  | filter_transform
  | data_transform
  | calc_M
  | calc_Y
  deriving DecidableEq, Repr

/-- A kernel argument set with `setArg` / `clSetKernelArg`: a device buffer or an `int`. -/
inductive Arg where
  | buffer (b : Buffer)
  | scalar (x : Int)
  deriving DecidableEq, Repr

/-- The arguments bound to each kernel in `main`, by position; the geometry values are the
32-bit values computed by `main`. -/
def kernelArgs (K C H W : Int) : Kernel → List Arg
  | .filter_transform =>
      [.buffer .g_filters, .buffer .g_G, .buffer .g_U, .scalar K, .scalar C]
  | .data_transform =>
      [.buffer .g_data, .buffer .g_B, .buffer .g_V, .scalar C,
       .scalar (geometry_int32 H W).P, .scalar H, .scalar W,
       .scalar (geometry_int32 H W).num_h_tiles, .scalar (geometry_int32 H W).num_w_tiles]
  | .calc_M =>
      [.buffer .g_U, .buffer .g_V, .buffer .g_M, .scalar K, .scalar (geometry_int32 H W).P,
       .scalar C]
  | .calc_Y =>
      [.buffer .g_M, .buffer .g_A, .buffer .g_Y, .scalar (geometry_int32 H W).out_H,
       .scalar (geometry_int32 H W).out_W, .scalar K, .scalar (geometry_int32 H W).P,
       .scalar (geometry_int32 H W).num_h_tiles, .scalar (geometry_int32 H W).num_w_tiles]

/-- A call on the command queue `cv.command` / `cv.commands`. -/
inductive Command where
  | enqueueWriteBuffer (b : Buffer) (blocking : Bool) (bytes : Int)
  | enqueueNDRangeKernel (k : Kernel) (args : List Arg) (global : List Int) (loc : List Int)
  | finish
  | enqueueReadBuffer (b : Buffer) (blocking : Bool) (bytes : Int)
  deriving DecidableEq, Repr

/-- The five blocking uploads of `main`, in program order, with their `size_t` byte counts. -/
def uploadCommands (K C H W : Int) : List Command :=
  [.enqueueWriteBuffer .g_filters true (size_t_of (sizeof_float * K * C * r * r)),
   .enqueueWriteBuffer .g_data true (size_t_of (sizeof_float * C * H * W)),
   .enqueueWriteBuffer .g_G true (size_t_of (sizeof_float * alpha * r)),
   .enqueueWriteBuffer .g_B true (size_t_of (sizeof_float * alpha * alpha)),
   .enqueueWriteBuffer .g_A true (size_t_of (sizeof_float * alpha * m))]

/-- The four kernel dispatches of `main`, in program order. -/
def kernelCommands (K C H W : Int) : List Command :=
  [.enqueueNDRangeKernel .filter_transform (kernelArgs K C H W .filter_transform)
     (global_work_size_U K C) local_work_size_U,
   .enqueueNDRangeKernel .data_transform (kernelArgs K C H W .data_transform)
     (global_work_size_V C (geometry_int32 H W)) local_work_size_V,
   .enqueueNDRangeKernel .calc_M (kernelArgs K C H W .calc_M)
     (global_work_size_M K (geometry_int32 H W)) local_work_size_M,
   .enqueueNDRangeKernel .calc_Y (kernelArgs K C H W .calc_Y)
     (global_work_size_Y K (geometry_int32 H W)) local_work_size_Y]

/-- The read-back of `Y`. -/
def readCommand (K H W : Int) : Command :=
  .enqueueReadBuffer .g_Y true
    (size_t_of (sizeof_float * K * (geometry_int32 H W).out_H * (geometry_int32 H W).out_W))

/-- All calls on the command queue, in program order: the uploads, the four dispatches,
`finish`, the read-back. -/
def commands (K C H W : Int) : List Command :=
  uploadCommands K C H W ++ kernelCommands K C H W ++ [.finish, readCommand K H W]

/-- The buffers among a list of kernel arguments, in binding order. -/
def bufferArgs : List Arg → List Buffer
  | [] => []
  | .buffer b :: rest => b :: bufferArgs rest
  | .scalar _ :: rest => bufferArgs rest

/-- Modelled from the spec: the kernel signatures of `winograd.cl`, which is not among the
sources.  Of the buffer operands of a kernel the first two are its inputs and the one after
them is its output: `filter_transform(filters, G -> U)`, `data_transform(image, B -> V)`,
`calc_M(U, V -> M)`, `calc_Y(M, A -> Y)`. -/
def kernelInputCount : Nat := 2

/-- The buffers a command reads: a kernel its input operands, the read-back its buffer. -/
def Command.reads : Command → List Buffer
  | .enqueueNDRangeKernel _ args _ _ => (bufferArgs args).take kernelInputCount
  | .enqueueReadBuffer b _ _ => [b]
  | _ => []

/-- The buffers a command writes: an upload its buffer, a kernel its output operand. -/
def Command.writes : Command → List Buffer
  | .enqueueWriteBuffer b _ _ => [b]
  | .enqueueNDRangeKernel _ args _ _ => (bufferArgs args).drop kernelInputCount
  | _ => []

/-- What a command is, without its sizes. -/
inductive Tag where
  | write (b : Buffer)
  | kernel (k : Kernel)
  | finish
  | read (b : Buffer)
  deriving DecidableEq, Repr

/-- The tag of a command. -/
def Command.tag : Command → Tag
  | .enqueueWriteBuffer b _ _ => .write b
  | .enqueueNDRangeKernel k _ _ _ => .kernel k
  | .finish => .finish
  | .enqueueReadBuffer b _ _ => .read b

/-- Every buffer read by a command of the list is in `written` or is written by a command
earlier in the list. -/
def readsAreWritten (written : List Buffer) : List Command → Bool
  | [] => true
  | c :: cs => c.reads.all (fun b => decide (b ∈ written)) &&
      readsAreWritten (written ++ c.writes) cs

/-- The tag `a` occurs in the list, and `b` occurs only after the first `a`. -/
def before (a b : Tag) (tags : List Tag) : Bool :=
  decide (a ∈ tags) && decide (b ∈ tags) && decide (tags.indexOf a < tags.indexOf b)

/-! ## The host program `main` -/

/-- The observable steps of a run of `main`. -/
inductive Event where
  | printUsage
  | openInput
  | printDiagnostic
  | closeInput
  | computeGeometry (geo : Geometry)
  | readFilters (elements : Int)
  | readImage (elements : Int)
  | createBuffers (bytes : BufferBytes)
  | command (c : Command)
  | report (K C P : Int)
  | openOutput
  | writeHeader (line : List Int)
  | writeChannels (K out_H out_W : Int)
  | closeOutput
  deriving DecidableEq, Repr

/-- The event is the geometry computation. -/
def Event.isGeometry : Event → Bool
  | .computeGeometry _ => true
  | _ => false

/-- The event opens, writes or closes the output file. -/
def Event.isOutputFile : Event → Bool
  | .openOutput => true
  | .writeHeader _ => true
  | .writeChannels _ _ _ => true
  | .closeOutput => true
  | _ => false

/-- A run of `main`: its events in order and the status it returns. -/
structure Run where
  events : List Event
  status : Int
  deriving DecidableEq, Repr

/-- The first line written to the output file:
`fileout << K << " " << C << " " << H << " " << W << endl;` in `winograd_gpu.cpp`,
`fileout << K << " " << C << " " << H - 2 << " " << W - 2 << endl;` in
`winograd_gpu_version2.cpp`. -/
def outputHeader (v : Version) (K C H W : Int) : List Int :=
  match v with
  | .v1 => [K, C, H, W]
  | .v2 => [K, C, sub32 H 2, sub32 W 2]

/-- The function `main`, given `argc` and the four `int` values parsed from the input file,
for a run in which every allocation, file operation and OpenCL call succeeds.  The host array
sizes `K*C*r*r` and `C*H*W` are `int` products. -/
def main (v : Version) (argc : Int) (K C H W : Int) : Run :=
  if argc ≠ 3 then
    { events := [.printUsage], status := 0 }
  else if !(valid H W) then
    { events := [.openInput, .printDiagnostic, .closeInput], status := 0 }
  else
    let geo := geometry_int32 H W
    { events :=
        [.openInput, .computeGeometry geo, .readFilters (mul32 (mul32 (mul32 K C) r) r),
         .readImage (mul32 (mul32 C H) W), .closeInput,
         .createBuffers (createdBufferBytes K C H W)]
        ++ (uploadCommands K C H W).map .command
        ++ (kernelCommands K C H W).map .command
        ++ [.command .finish, .report K C geo.P, .command (readCommand K H W),
            .openOutput, .writeHeader (outputHeader v K C H W),
            .writeChannels K geo.out_H geo.out_W, .closeOutput]
      status := 0 }

/-- The run took the invalid-shape path: the diagnostic was printed, no geometry was computed,
the output file was neither opened nor written, and the exit status is 0. -/
def invalidShapePath (run : Run) : Bool :=
  decide (Event.printDiagnostic ∈ run.events) &&
    run.events.all (fun e => !e.isGeometry && !e.isOutputFile) &&
    decide (run.status = 0)

/-- The command of an event, when the event is a call on the command queue. -/
def Event.command? : Event → Option Command
  | .command c => some c
  | _ => none

/-- The geometry of an event that computes it. -/
def Event.geometry? : Event → Option Geometry
  | .computeGeometry geo => some geo
  | _ => none

/-- The tags of the queue calls of a run, in order. -/
def Run.queueTags (run : Run) : List Tag :=
  (run.events.filterMap Event.command?).map Command.tag

/-! ## `report_winograd_statistics` -/

/-- The value of `flop` in `report_winograd_statistics`, on mathematical integers:
`K * C * (4 * 3 * 5) * 2 + C * P * (4 * 4 * 7) * 2 + 16 * K * P * (2 * C - 1) +
K * P * (2 * 4 * 7) * 2`. -/
def flop (K C P : Int) : Int :=
  K * C * (4 * 3 * 5) * 2 +
    C * P * (4 * 4 * 7) * 2 +
    16 * K * P * (2 * C - 1) +
    K * P * (2 * 4 * 7) * 2

/-- The value of `flop` in `report_winograd_statistics` as the program computes and prints
it: the same expression with every operation carried out on 32-bit `int`, products from left
to right, then the sums from left to right. -/
def flop_int32 (K C P : Int) : Int :=
  add32 (add32 (add32
    (mul32 (mul32 (mul32 K C) (mul32 (mul32 4 3) 5)) 2)
    (mul32 (mul32 (mul32 C P) (mul32 (mul32 4 4) 7)) 2))
    (mul32 (mul32 (mul32 16 K) P) (sub32 (mul32 2 C) 1)))
    (mul32 (mul32 (mul32 K P) (mul32 (mul32 2 4) 7)) 2)

/-! ## The image loader of `main` -/

/-- The triples `(c, i, j)` in the order of the loops
`for c < C, for i < H, for j < W` of the image loader. -/
def imageLoopOrder (C H W : Nat) : List (Nat × Nat × Nat) :=
  (List.range C).flatMap fun c => (List.range H).flatMap fun i => (List.range W).map fun j => (c, i, j)

/-- The index expression of the image loader: `data[c*(H*W) + i*H + j]`. -/
def imageIndex (H W c i j : Nat) : Nat :=
  c * (H * W) + i * H + j

/-- The body `file >> data[c*(H*W) + i*H + j]` executed for the given loop triples: the
`n`-th value of the file is stored at the index; a store outside the array has no defined
behaviour and yields `none`. -/
def storeImage {α : Type} (H W : Nat) (file : Nat → α) :
    List (Nat × Nat × Nat) → Nat → List (Option α) → Option (List (Option α))
  | [], _, data => some data
  | (c, i, j) :: rest, n, data =>
      if imageIndex H W c i j < data.length then
        storeImage H W file rest (n + 1) (data.set (imageIndex H W c i j) (some (file n)))
      else
        none

/-- The image loader of `main`: `data = new float[C*H*W]` (no element initialised), then the
three nested loops.  `file n` is the `n`-th image value of the input file. -/
def loadImage {α : Type} (C H W : Nat) (file : Nat → α) : Option (List (Option α)) :=
  storeImage H W file (imageLoopOrder C H W) 0 (List.replicate (C * H * W) none)

/-! ## Element counts of the device buffers -/

/-- The number of `float` elements of a buffer created with `bytes` bytes:
`bytes / sizeof(float)`. -/
def elementCount (bytes : Int) : Int :=
  Int.tdiv bytes sizeof_float

/-- The element counts of the nine buffers, in the order `filters, image, G, B, A, U, V, M,
Y` of their creation. -/
def BufferBytes.elements (b : BufferBytes) : List Int :=
  [b.g_filters, b.g_data, b.g_G, b.g_B, b.g_A, b.g_U, b.g_V, b.g_M, b.g_Y].map elementCount

/-! ## A call of `gws` with any group size -/

/-- How a call of `gws` can end.  `invalidPartitionError` is the failure the specification
names; `undefinedBehaviour` stands for a division by zero, for which C++ defines no result. -/
inductive CallResult where
  | returned (value : Int)
  | invalidPartitionError
  | undefinedBehaviour
  deriving DecidableEq, Repr

/-- A call `gws(global_size, local_size)` on two `int` values.  The body has no test of
`local_size` and no error path.  It starts with `global_size % local_size`, for which C++
defines no result when `local_size == 0` or when the quotient is not representable
(`INT_MIN % -1`); when the remainder is not zero it forms `global_size + local_size`, for
which C++ defines no result when the sum leaves the `int` range (the product that follows is
then no larger in magnitude than the sum).  Otherwise the value of `gws` is returned, as an
`int` in `winograd_gpu.cpp` and converted to `cl::size_type` in `winograd_gpu_version2.cpp`. -/
def gws_call (v : Version) (global_size local_size : Int) : CallResult :=
  if local_size = 0 then
    .undefinedBehaviour
  else if global_size = INT_MIN ∧ local_size = -1 then
    .undefinedBehaviour
  else if Int.tmod global_size local_size ≠ 0 ∧
      ¬ (INT_MIN ≤ global_size + local_size ∧ global_size + local_size ≤ INT_MAX) then
    .undefinedBehaviour
  else
    match v with
    | .v1 => .returned (gws_int32 global_size local_size)
    | .v2 => .returned (size_t_of (gws_int32 global_size local_size))

/-! ## Host array indices -/

/-- The index expression of the filter loader: `filters[k*(C*r*r) + c*(r*r) + i*r + j]`. -/
def filterIndex (C k c i j : Int) : Int :=
  k * (C * r * r) + c * (r * r) + i * r + j

/-- The index expression of the output writer: `index = k*(out_H*out_W) + i*out_W + j`. -/
def outputIndex (geo : Geometry) (k i j : Int) : Int :=
  k * (geo.out_H * geo.out_W) + i * geo.out_W + j

/-! ## `flop` with overflow detection -/

/-- A 32-bit `int` result: the value when it is representable, `none` when the operation
overflows. -/
def checked32 (x : Int) : Option Int :=
  if -(2 ^ 31) ≤ x ∧ x ≤ INT_MAX then some x else none

/-- The product of two 32-bit results; `none` when an operand is missing or the product
overflows. -/
def mulc (a b : Option Int) : Option Int :=
  a.bind fun x => b.bind fun y => checked32 (x * y)

/-- The sum of two 32-bit results; `none` when an operand is missing or the sum overflows. -/
def addc (a b : Option Int) : Option Int :=
  a.bind fun x => b.bind fun y => checked32 (x + y)

/-- The difference of two 32-bit results; `none` when an operand is missing or the
difference overflows. -/
def subc (a b : Option Int) : Option Int :=
  a.bind fun x => b.bind fun y => checked32 (x - y)

/-- The expression `flop` of `report_winograd_statistics` evaluated operation by operation,
the products of each term from left to right, then the sums from left to right; `none` as
soon as one intermediate result does not fit a 32-bit `int`. -/
def flop_checked (K C P : Int) : Option Int :=
  addc (addc (addc
    (mulc (mulc (mulc (some K) (some C)) (mulc (mulc (some 4) (some 3)) (some 5))) (some 2))
    (mulc (mulc (mulc (some C) (some P)) (mulc (mulc (some 4) (some 4)) (some 7))) (some 2)))
    (mulc (mulc (mulc (some 16) (some K)) (some P)) (subc (mulc (some 2) (some C)) (some 1))))
    (mulc (mulc (mulc (some K) (some P)) (mulc (mulc (some 2) (some 4)) (some 7))) (some 2))

/-! ## Transform constants of `main` -/

/-- Filter transform matrix `float G[12]` of `main`, in the order of its initialiser. -/
def G : List ℚ :=
  [1, 0, 0,
   1/2, 1/2, 1/2,
   1/2, -1/2, 1/2,
   0, 0, 1]

/-- Data transform matrix `float B[16]` of `main`, in the order of its initialiser. -/
def B : List ℚ :=
  [1, 0, 0, 0,
   0, 1, -1, 1,
   -1, 1, 1, 0,
   0, 0, 0, -1]

/-- Inverse transform matrix `float A[8]` of `main`, in the order of its initialiser. -/
def A : List ℚ :=
  [1, 0,
   1, 1,
   1, -1,
   0, -1]

/-- Entry `(i, j)` of a flat array read row-major with `cols` columns. -/
def rowMajor (a : List ℚ) (cols : Nat) (i j : Nat) : ℚ :=
  a.getD (i * cols + j) 0

/-- A matrix given by its entries. -/
abbrev Mat := Nat → Nat → ℚ

/-- The matrix product of `X` and `Y` with inner dimension `n`. -/
def matMul (n : Nat) (X Y : Mat) : Mat :=
  fun i j => ((List.range n).map (fun k => X i k * Y k j)).sum

/-- The transpose of a matrix. -/
def transpose (X : Mat) : Mat :=
  fun i j => X j i

/-- The elementwise (Hadamard) product. -/
def hadamard (X Y : Mat) : Mat :=
  fun i j => X i j * Y i j

/-- Modelled from the spec: the device kernel `filter_transform` of `winograd.cl`, which is
not among the sources, for one filter: `U = G * g * G^T`, with `G` read row-major as a 4x3
matrix. -/
def filter_transform (g : Mat) : Mat :=
  matMul 3 (matMul 3 (rowMajor G 3) g) (transpose (rowMajor G 3))

/-- Modelled from the spec: the device kernel `data_transform` of `winograd.cl`, for one
4x4 input patch: `V = B^T * d * B`, with `B` read row-major as a 4x4 matrix. -/
def data_transform (d : Mat) : Mat :=
  matMul 4 (matMul 4 (transpose (rowMajor B 4)) d) (rowMajor B 4)

/-- Modelled from the spec: the device kernel `calc_M` of `winograd.cl`, for one channel and
one tile: the elementwise product of the transformed filter and the transformed patch. -/
def calc_M (U V : Mat) : Mat :=
  hadamard U V

/-- Modelled from the spec: the device kernel `calc_Y` of `winograd.cl`, for one tile:
`Y = A^T * M * A`, with `A` read row-major as a 4x2 matrix. -/
def calc_Y (M : Mat) : Mat :=
  matMul 4 (matMul 4 (transpose (rowMajor A 2)) M) (rowMajor A 2)

/-- Modelled from the spec: the four stages chained on one filter and one input patch. -/
def winogradTile (g d : Mat) : Mat :=
  calc_Y (calc_M (filter_transform g) (data_transform d))

/-- Modelled from the spec: the reference 2x2 valid convolution,
`Y[i][j] = sum over u, v in 0..2 of g[u][v] * d[i+u][j+v]`. -/
def directConv (g d : Mat) : Mat :=
  fun i j => ((List.range 3).map (fun u =>
    ((List.range 3).map (fun v => g u v * d (i + u) (j + v))).sum)).sum

/-! ## Auxiliary facts -/

theorem wrap32_of_range (x : Int) (h1 : -(2 ^ 31) ≤ x) (h2 : x ≤ INT_MAX) : wrap32 x = x := by
  unfold wrap32 INT_MAX at *
  omega

theorem tmod_two (x : Int) : Int.tmod x 2 ≠ 0 ↔ x % 2 = 1 := by
  rw [Ne, ← Int.dvd_iff_tmod_eq_zero]
  omega

theorem ceil_of_int_eq (x : Int) : ceil_of_int x = x := by
  simp [ceil_of_int]

theorem geometry_even (H W : Int) (hH : 4 ≤ H) (hW : 4 ≤ W) (eH : H % 2 = 0) (eW : W % 2 = 0) :
    geometry H W =
      { out_H := H - 2, out_W := W - 2, num_h_tiles := (H - 2) / 2,
        num_w_tiles := (W - 2) / 2, P := (H - 2) / 2 * ((W - 2) / 2) } := by
  have h1 : Int.tdiv (H - 3 + 1) 2 = (H - 2) / 2 := by
    rw [Int.tdiv_eq_ediv (by omega) (by decide)]
    congr 1
    omega
  have h2 : Int.tdiv (W - 3 + 1) 2 = (W - 2) / 2 := by
    rw [Int.tdiv_eq_ediv (by omega) (by decide)]
    congr 1
    omega
  simp only [geometry, ceil_of_int_eq, r, m, h1, h2]
  congr 1 <;> omega

theorem gws_of_pos (extent g : Int) (h0 : 0 ≤ extent) (hg : 0 < g) :
    gws extent g = if extent % g ≠ 0 then (extent / g + 1) * g else extent := by
  have hmod : Int.tmod extent g = extent % g := Int.tmod_eq_emod h0 (Int.le_of_lt hg)
  have hdiv : Int.tdiv (extent + g) g = extent / g + 1 := by
    rw [Int.tdiv_eq_ediv (by omega) (Int.le_of_lt hg)]
    exact Int.add_ediv_of_dvd_right (dvd_refl g) |>.trans (by rw [Int.ediv_self (by omega)])
  simp only [gws, hmod, hdiv]

theorem ceil_half_of_even (x : Int) (e : x % 2 = 0) : ⌈((x : ℚ) / 2)⌉ = x / 2 := by
  obtain ⟨k, rfl⟩ : ∃ k, x = 2 * k := ⟨x / 2, by omega⟩
  have h : (((2 * k : Int) : ℚ) / 2) = ((k : Int) : ℚ) := by
    push_cast
    ring
  rw [h, Int.ceil_intCast]
  omega

theorem gws_cases (extent g : Int) (h0 : 0 ≤ extent) (hg : 0 < g) :
    (extent % g = 0 ∧ gws extent g = extent) ∨
      (0 < extent % g ∧ gws extent g = extent - extent % g + g) := by
  have hrem := Int.emod_nonneg extent (Int.ne_of_gt hg)
  have hsplit := Int.ediv_add_emod extent g
  rw [gws_of_pos extent g h0 hg]
  by_cases h : extent % g = 0
  · left
    simp [h]
  · right
    refine ⟨by omega, ?_⟩
    rw [if_pos h]
    linarith [Int.add_mul (extent / g) 1 g, Int.mul_comm g (extent / g)]

theorem gws_int32_eq_gws (extent g : Int) (h0 : 0 ≤ extent) (hg : 0 < g)
    (hr : extent + g ≤ INT_MAX) : gws_int32 extent g = gws extent g := by
  have hlt := Int.emod_lt_of_pos extent hg
  have hrem := Int.emod_nonneg extent (Int.ne_of_gt hg)
  have hI : INT_MAX = 2 ^ 31 - 1 := rfl
  unfold gws_int32
  rw [wrap32_of_range (extent + g) (by omega) hr]
  by_cases h : Int.tmod extent g ≠ 0
  · have hval : gws extent g = Int.tdiv (extent + g) g * g := by simp [gws, h]
    rw [if_pos h, ← hval]
    rcases gws_cases extent g h0 hg with ⟨_, e⟩ | ⟨_, e⟩ <;>
      exact wrap32_of_range _ (by omega) (by omega)
  · simp [gws, h]

theorem valid_iff (H W : Int) : valid H W = true ↔ H % 2 = 0 ∧ W % 2 = 0 := by
  have hH := tmod_two H
  have hW := tmod_two W
  unfold valid
  by_cases h1 : Int.tmod H 2 ≠ 0 <;> by_cases h2 : Int.tmod W 2 ≠ 0 <;>
    simp only [h1, h2, if_true, if_false] <;> simp <;> omega

theorem flop_eq (K C P : Int) :
    flop K C P = K * C * 120 + C * P * 224 + 16 * K * P * (2 * C - 1) + K * P * 112 := by
  unfold flop
  ring

theorem flop_int32_eq_flop (K C P : Int) (hK : 1 ≤ K) (hC : 1 ≤ C) (hP : 1 ≤ P)
    (hT : K * C * 120 + C * P * 224 + 16 * K * P * (2 * C - 1) + K * P * 112 ≤ INT_MAX) :
    flop_int32 K C P = flop K C P := by
  have hI : INT_MAX = 2147483647 := by decide
  have hm : -(2 ^ 31 : Int) = -2147483648 := by decide
  rw [hI] at hT
  have a1 : K ≤ K * C := by nlinarith
  have a2 : C ≤ K * C := by nlinarith
  have b1 : 1 ≤ C * P := by nlinarith
  have d1 : K ≤ K * P := by nlinarith
  have e1 : K * P ≤ K * P * C := by nlinarith
  have e2 : 16 * K * P * (2 * C - 1) = 32 * (K * P * C) - 16 * (K * P) := by ring
  rw [e2] at hT
  have c1 : mul32 (mul32 4 3) 5 = 60 := by decide
  have c2 : mul32 (mul32 4 4) 7 = 112 := by decide
  have c3 : mul32 (mul32 2 4) 7 = 56 := by decide
  have w1 : wrap32 (K * C) = K * C :=
    wrap32_of_range _ (by rw [hm]; linarith) (by rw [hI]; linarith)
  have w2 : wrap32 (K * C * 60) = K * C * 60 :=
    wrap32_of_range _ (by rw [hm]; linarith) (by rw [hI]; linarith)
  have w3 : wrap32 (K * C * 60 * 2) = K * C * 60 * 2 :=
    wrap32_of_range _ (by rw [hm]; linarith) (by rw [hI]; linarith)
  have w4 : wrap32 (C * P) = C * P :=
    wrap32_of_range _ (by rw [hm]; linarith) (by rw [hI]; linarith)
  have w5 : wrap32 (C * P * 112) = C * P * 112 :=
    wrap32_of_range _ (by rw [hm]; linarith) (by rw [hI]; linarith)
  have w6 : wrap32 (C * P * 112 * 2) = C * P * 112 * 2 :=
    wrap32_of_range _ (by rw [hm]; linarith) (by rw [hI]; linarith)
  have w7 : wrap32 (16 * K) = 16 * K :=
    wrap32_of_range _ (by rw [hm]; linarith) (by rw [hI]; linarith)
  have w8 : wrap32 (16 * K * P) = 16 * K * P :=
    wrap32_of_range _ (by rw [hm]; linarith) (by rw [hI]; linarith)
  have w9 : wrap32 (2 * C) = 2 * C :=
    wrap32_of_range _ (by rw [hm]; linarith) (by rw [hI]; linarith)
  have w10 : wrap32 (2 * C - 1) = 2 * C - 1 :=
    wrap32_of_range _ (by rw [hm]; linarith) (by rw [hI]; linarith)
  have w11 : wrap32 (16 * K * P * (2 * C - 1)) = 16 * K * P * (2 * C - 1) :=
    wrap32_of_range _ (by rw [hm, e2]; linarith) (by rw [hI, e2]; linarith)
  have w12 : wrap32 (K * P) = K * P :=
    wrap32_of_range _ (by rw [hm]; linarith) (by rw [hI]; linarith)
  have w13 : wrap32 (K * P * 56) = K * P * 56 :=
    wrap32_of_range _ (by rw [hm]; linarith) (by rw [hI]; linarith)
  have w14 : wrap32 (K * P * 56 * 2) = K * P * 56 * 2 :=
    wrap32_of_range _ (by rw [hm]; linarith) (by rw [hI]; linarith)
  have w15 : wrap32 (K * C * 60 * 2 + C * P * 112 * 2) = K * C * 60 * 2 + C * P * 112 * 2 :=
    wrap32_of_range _ (by rw [hm]; linarith) (by rw [hI]; linarith)
  have w16 : wrap32 (K * C * 60 * 2 + C * P * 112 * 2 + 16 * K * P * (2 * C - 1)) =
      K * C * 60 * 2 + C * P * 112 * 2 + 16 * K * P * (2 * C - 1) :=
    wrap32_of_range _ (by rw [hm, e2]; linarith) (by rw [hI, e2]; linarith)
  have w17 : wrap32 (K * C * 60 * 2 + C * P * 112 * 2 + 16 * K * P * (2 * C - 1) +
      K * P * 56 * 2) =
      K * C * 60 * 2 + C * P * 112 * 2 + 16 * K * P * (2 * C - 1) + K * P * 56 * 2 :=
    wrap32_of_range _ (by rw [hm, e2]; linarith) (by rw [hI, e2]; linarith)
  unfold flop_int32
  rw [c1, c2, c3]
  simp only [mul32, add32, sub32, w1, w2, w3, w4, w5, w6, w7, w8, w9, w10, w11, w12, w13, w14,
    w15, w16, w17]
  unfold flop
  ring

/-- The integer model is exact for every run that gets as far as the dispatch: when the two
host array sizes `K*C*r*r` and `C*H*W` fit a 32-bit `int`, so do `P` and every sum formed in
the ten calls of `gws`, and the 32-bit evaluation of each call agrees with `gws`. -/
theorem work_sizes_fit_int32 (K C H W : Int) (hK : 1 ≤ K) (hC : 1 ≤ C) (hH : 4 ≤ H)
    (hW : 4 ≤ W) (eH : H % 2 = 0) (eW : W % 2 = 0)
    (hF : K * C * r * r ≤ INT_MAX) (hD : C * H * W ≤ INT_MAX) :
    (geometry H W).P ≤ INT_MAX ∧
    gws_int32 K 8 = gws K 8 ∧ gws_int32 C 4 = gws C 4 ∧ gws_int32 K 2 = gws K 2 ∧
    gws_int32 (geometry H W).P 8 = gws (geometry H W).P 8 ∧
    gws_int32 (geometry H W).num_h_tiles 4 = gws (geometry H W).num_h_tiles 4 ∧
    gws_int32 (geometry H W).num_w_tiles 4 = gws (geometry H W).num_w_tiles 4 ∧
    gws_int32 (geometry H W).num_h_tiles 8 = gws (geometry H W).num_h_tiles 8 ∧
    gws_int32 (geometry H W).num_w_tiles 8 = gws (geometry H W).num_w_tiles 8 := by
  have hI : INT_MAX = 2147483647 := by decide
  rw [geometry_even H W hH hW eH eW]
  simp only [r] at hF
  rw [hI] at hF hD
  obtain ⟨a, ha⟩ : ∃ a, H = 2 * a + 2 := ⟨(H - 2) / 2, by omega⟩
  obtain ⟨b, hb⟩ : ∃ b, W = 2 * b + 2 := ⟨(W - 2) / 2, by omega⟩
  have qa : (H - 2) / 2 = a := by omega
  have qb : (W - 2) / 2 = b := by omega
  have pa : 1 ≤ a := by omega
  have pb : 1 ≤ b := by omega
  have hab : 1 ≤ a * b := by nlinarith
  have hKC : K ≤ K * C := by nlinarith
  have hHW : H * W ≤ C * H * W := by nlinarith [mul_pos (by omega : 0 < H) (by omega : 0 < W)]
  have hCHW : 16 * C ≤ C * H * W := by nlinarith [mul_nonneg (by omega : 0 ≤ H - 4) (by omega : 0 ≤ W)]
  have hP : 4 * (a * b) + 12 ≤ H * W := by
    rw [ha, hb]
    nlinarith
  have hH2 : 4 * H ≤ H * W := by nlinarith
  have hW2 : 4 * W ≤ H * W := by nlinarith
  simp only [qa, qb]
  refine ⟨by rw [hI]; linarith, ?_, ?_, ?_, ?_, ?_, ?_, ?_, ?_⟩ <;>
    refine gws_int32_eq_gws _ _ (by linarith) (by decide) ?_ <;>
    rw [hI] <;> linarith

theorem geometry_formula (H W : Int) :
    geometry H W =
      { out_H := H - 2, out_W := W - 2, num_h_tiles := Int.tdiv (H - 2) 2,
        num_w_tiles := Int.tdiv (W - 2) 2,
        P := Int.tdiv (H - 2) 2 * Int.tdiv (W - 2) 2 } := by
  have h1 : H - 3 + 1 = H - 2 := by omega
  have h2 : W - 3 + 1 = W - 2 := by omega
  simp only [geometry, ceil_of_int_eq, r, m, h1, h2]

theorem geometry_even_two (H W : Int) (hH : 2 ≤ H) (hW : 2 ≤ W) :
    geometry H W =
      { out_H := H - 2, out_W := W - 2, num_h_tiles := (H - 2) / 2,
        num_w_tiles := (W - 2) / 2, P := (H - 2) / 2 * ((W - 2) / 2) } := by
  rw [geometry_formula, Int.tdiv_eq_ediv (by omega : 0 ≤ H - 2) (by decide),
    Int.tdiv_eq_ediv (by omega : 0 ≤ W - 2) (by decide)]

theorem elementCount_four_mul (x : Int) : elementCount (4 * x) = x := by
  unfold elementCount sizeof_float
  exact Int.mul_tdiv_cancel_left x (by decide)

theorem elements_bufferBytes (K C H W : Int) :
    (bufferBytes K C H W).elements =
      [K * C * 9, C * H * W, 12, 16, 8, K * C * 16, C * (geometry H W).P * 16,
       K * (geometry H W).P * 16, K * (geometry H W).out_H * (geometry H W).out_W] := by
  have e1 : sizeof_float * K * C * 3 * 3 = 4 * (K * C * 9) := by
    unfold sizeof_float
    ring
  have e2 : sizeof_float * C * H * W = 4 * (C * H * W) := by
    unfold sizeof_float
    ring
  have e3 : sizeof_float * alpha * r = 4 * 12 := by decide
  have e4 : sizeof_float * alpha * alpha = 4 * 16 := by decide
  have e5 : sizeof_float * alpha * m = 4 * 8 := by decide
  have e6 : sizeof_float * K * C * alpha * alpha = 4 * (K * C * 16) := by
    unfold sizeof_float alpha
    ring
  have e7 : sizeof_float * C * (geometry H W).P * alpha * alpha =
      4 * (C * (geometry H W).P * 16) := by
    unfold sizeof_float alpha
    ring
  have e8 : sizeof_float * K * (geometry H W).P * alpha * alpha =
      4 * (K * (geometry H W).P * 16) := by
    unfold sizeof_float alpha
    ring
  have e9 : sizeof_float * K * (geometry H W).out_H * (geometry H W).out_W =
      4 * (K * (geometry H W).out_H * (geometry H W).out_W) := by
    unfold sizeof_float
    ring
  simp only [BufferBytes.elements, bufferBytes, List.map, e1, e2, e3, e4, e5, e6, e7, e8, e9,
    elementCount_four_mul]

theorem filterIndex_in_bounds (K C k c i j : Int) (hk : 0 ≤ k) (hkK : k < K) (hc : 0 ≤ c)
    (hcC : c < C) (hi : 0 ≤ i) (hi3 : i < r) (hj : 0 ≤ j) (hj3 : j < r) :
    0 ≤ filterIndex C k c i j ∧ filterIndex C k c i j < K * C * r * r := by
  unfold filterIndex
  unfold r at *
  have h1 : 0 ≤ k * C := mul_nonneg hk (by omega)
  have h2 : (k + 1) * C ≤ K * C := Int.mul_le_mul_of_nonneg_right (by omega) (by omega)
  constructor
  · nlinarith
  · nlinarith

theorem outputIndex_in_bounds (K H W k i j : Int) (hH : 4 ≤ H) (hW : 4 ≤ W)
    (hk : 0 ≤ k) (hkK : k < K) (hi : 0 ≤ i) (hiH : i < (geometry H W).out_H)
    (hj : 0 ≤ j) (hjW : j < (geometry H W).out_W) :
    0 ≤ outputIndex (geometry H W) k i j ∧
      outputIndex (geometry H W) k i j < K * (geometry H W).out_H * (geometry H W).out_W := by
  rw [geometry_formula] at *
  simp only [outputIndex] at *
  have h0 : 0 ≤ (H - 2) * (W - 2) := mul_nonneg (by omega) (by omega)
  have h1 : 0 ≤ k * ((H - 2) * (W - 2)) := mul_nonneg hk h0
  have h2 : (k + 1) * ((H - 2) * (W - 2)) ≤ K * ((H - 2) * (W - 2)) :=
    Int.mul_le_mul_of_nonneg_right (by omega) h0
  have h3 : 0 ≤ i * (W - 2) := mul_nonneg hi (by omega)
  have h4 : (i + 1) * (W - 2) ≤ (H - 2) * (W - 2) :=
    Int.mul_le_mul_of_nonneg_right (by omega) (by omega)
  constructor
  · linarith
  · nlinarith

theorem imageIndex_in_bounds_of_le (C H W c i j : Nat) (hHW : H ≤ W) (hc : c < C) (hi : i < H)
    (hj : j < W) : imageIndex H W c i j < C * H * W := by
  unfold imageIndex
  have h1 : (c + 1) * (H * W) ≤ C * (H * W) := Nat.mul_le_mul_right _ hc
  have h2 : i * H ≤ i * W := Nat.mul_le_mul_left _ hHW
  have h3 : (i + 1) * W ≤ H * W := Nat.mul_le_mul_right _ hi
  nlinarith

theorem checked32_of_range (x : Int) (h1 : -(2 ^ 31) ≤ x) (h2 : x ≤ INT_MAX) :
    checked32 x = some x := by
  unfold checked32
  rw [if_pos ⟨h1, h2⟩]

theorem flop_checked_eq_flop (K C P : Int) (hK : 1 ≤ K) (hC : 1 ≤ C) (hP : 1 ≤ P)
    (hT : K * C * 120 + C * P * 224 + 16 * K * P * (2 * C - 1) + K * P * 112 ≤ INT_MAX) :
    flop_checked K C P = some (flop K C P) := by
  have hI : INT_MAX = 2147483647 := by decide
  have hm : -(2 ^ 31 : Int) = -2147483648 := by decide
  rw [hI] at hT
  have a1 : K ≤ K * C := by nlinarith
  have a2 : C ≤ K * C := by nlinarith
  have b1 : 1 ≤ C * P := by nlinarith
  have d1 : K ≤ K * P := by nlinarith
  have e1 : K * P ≤ K * P * C := by nlinarith
  have e2 : 16 * K * P * (2 * C - 1) = 32 * (K * P * C) - 16 * (K * P) := by ring
  rw [e2] at hT
  have k1 : checked32 (4 * 3) = some 12 := by decide
  have k2 : checked32 (12 * 5) = some 60 := by decide
  have k3 : checked32 (4 * 4) = some 16 := by decide
  have k4 : checked32 (16 * 7) = some 112 := by decide
  have k5 : checked32 (2 * 4) = some 8 := by decide
  have k6 : checked32 (8 * 7) = some 56 := by decide
  have w1 : checked32 (K * C) = some (K * C) :=
    checked32_of_range _ (by rw [hm]; linarith) (by rw [hI]; linarith)
  have w2 : checked32 (K * C * 60) = some (K * C * 60) :=
    checked32_of_range _ (by rw [hm]; linarith) (by rw [hI]; linarith)
  have w3 : checked32 (K * C * 60 * 2) = some (K * C * 60 * 2) :=
    checked32_of_range _ (by rw [hm]; linarith) (by rw [hI]; linarith)
  have w4 : checked32 (C * P) = some (C * P) :=
    checked32_of_range _ (by rw [hm]; linarith) (by rw [hI]; linarith)
  have w5 : checked32 (C * P * 112) = some (C * P * 112) :=
    checked32_of_range _ (by rw [hm]; linarith) (by rw [hI]; linarith)
  have w6 : checked32 (C * P * 112 * 2) = some (C * P * 112 * 2) :=
    checked32_of_range _ (by rw [hm]; linarith) (by rw [hI]; linarith)
  have w7 : checked32 (16 * K) = some (16 * K) :=
    checked32_of_range _ (by rw [hm]; linarith) (by rw [hI]; linarith)
  have w8 : checked32 (16 * K * P) = some (16 * K * P) :=
    checked32_of_range _ (by rw [hm]; linarith) (by rw [hI]; linarith)
  have w9 : checked32 (2 * C) = some (2 * C) :=
    checked32_of_range _ (by rw [hm]; linarith) (by rw [hI]; linarith)
  have w10 : checked32 (2 * C - 1) = some (2 * C - 1) :=
    checked32_of_range _ (by rw [hm]; linarith) (by rw [hI]; linarith)
  have w11 : checked32 (16 * K * P * (2 * C - 1)) = some (16 * K * P * (2 * C - 1)) :=
    checked32_of_range _ (by rw [hm, e2]; linarith) (by rw [hI, e2]; linarith)
  have w12 : checked32 (K * P) = some (K * P) :=
    checked32_of_range _ (by rw [hm]; linarith) (by rw [hI]; linarith)
  have w13 : checked32 (K * P * 56) = some (K * P * 56) :=
    checked32_of_range _ (by rw [hm]; linarith) (by rw [hI]; linarith)
  have w14 : checked32 (K * P * 56 * 2) = some (K * P * 56 * 2) :=
    checked32_of_range _ (by rw [hm]; linarith) (by rw [hI]; linarith)
  have w15 : checked32 (K * C * 60 * 2 + C * P * 112 * 2) =
      some (K * C * 60 * 2 + C * P * 112 * 2) :=
    checked32_of_range _ (by rw [hm]; linarith) (by rw [hI]; linarith)
  have w16 : checked32 (K * C * 60 * 2 + C * P * 112 * 2 + 16 * K * P * (2 * C - 1)) =
      some (K * C * 60 * 2 + C * P * 112 * 2 + 16 * K * P * (2 * C - 1)) :=
    checked32_of_range _ (by rw [hm, e2]; linarith) (by rw [hI, e2]; linarith)
  have w17 : checked32 (K * C * 60 * 2 + C * P * 112 * 2 + 16 * K * P * (2 * C - 1) +
      K * P * 56 * 2) =
      some (K * C * 60 * 2 + C * P * 112 * 2 + 16 * K * P * (2 * C - 1) + K * P * 56 * 2) :=
    checked32_of_range _ (by rw [hm, e2]; linarith) (by rw [hI, e2]; linarith)
  unfold flop_checked
  simp only [mulc, addc, subc, Option.some_bind, k1, k2, k3, k4, k5, k6, w1, w2, w3, w4, w5,
    w6, w7, w8, w9, w10, w11, w12, w13, w14, w15, w16, w17]
  unfold flop
  exact congrArg some (by ring)

theorem size_t_of_of_range (x : Int) (h0 : 0 ≤ x) (h1 : x < 2 ^ 64) : size_t_of x = x := by
  unfold size_t_of
  exact Int.emod_eq_of_lt h0 h1

theorem geometry_int32_formula (H W : Int) :
    geometry_int32 H W =
      { out_H := add32 (sub32 H 3) 1, out_W := add32 (sub32 W 3) 1,
        num_h_tiles := Int.tdiv (add32 (sub32 H 3) 1) 2,
        num_w_tiles := Int.tdiv (add32 (sub32 W 3) 1) 2,
        P := mul32 (Int.tdiv (add32 (sub32 H 3) 1) 2) (Int.tdiv (add32 (sub32 W 3) 1) 2) } := by
  simp only [geometry_int32, ceil_of_int_eq, r, m]

theorem out_extent_int32 (H : Int) (hH : 2 ≤ H) (bH : H ≤ INT_MAX) :
    add32 (sub32 H 3) 1 = H - 2 := by
  have hI : INT_MAX = 2147483647 := by decide
  have hm : -(2 ^ 31 : Int) = -2147483648 := by decide
  rw [hI] at bH
  unfold add32 sub32
  rw [wrap32_of_range (H - 3) (by rw [hm]; omega) (by rw [hI]; omega),
    wrap32_of_range (H - 3 + 1) (by rw [hm]; omega) (by rw [hI]; omega)]
  omega

theorem geometry_int32_eq_geometry (H W : Int) (hH : 2 ≤ H) (hW : 2 ≤ W)
    (bH : H ≤ INT_MAX) (bW : W ≤ INT_MAX) (bP : (H - 2) / 2 * ((W - 2) / 2) ≤ INT_MAX) :
    geometry_int32 H W = geometry H W := by
  have hm : -(2 ^ 31 : Int) = -2147483648 := by decide
  have tH : Int.tdiv (H - 2) 2 = (H - 2) / 2 := Int.tdiv_eq_ediv (by omega) (by decide)
  have tW : Int.tdiv (W - 2) 2 = (W - 2) / 2 := Int.tdiv_eq_ediv (by omega) (by decide)
  have pH : 0 ≤ (H - 2) / 2 := by omega
  have pW : 0 ≤ (W - 2) / 2 := by omega
  have pP : 0 ≤ (H - 2) / 2 * ((W - 2) / 2) := mul_nonneg pH pW
  rw [geometry_int32_formula, geometry_formula, out_extent_int32 H hH bH,
    out_extent_int32 W hW bW, tH, tW]
  unfold mul32
  rw [wrap32_of_range _ (by rw [hm]; omega) bP]

theorem main_geometry (v : Version) (K C H W : Int) (hv : valid H W = true) :
    (main v 3 K C H W).events.filterMap Event.geometry? = [geometry_int32 H W] := by
  simp [main, hv, uploadCommands, kernelCommands, Event.geometry?]

theorem valid_of_even (H W : Int) (eH : H % 2 = 0) (eW : W % 2 = 0) : valid H W = true :=
  (valid_iff H W).mpr ⟨eH, eW⟩

theorem gws_bounds (x g : Int) (h0 : 0 ≤ x) (hg : 0 < g) :
    x ≤ gws x g ∧ gws x g ≤ x + g := by
  have hlt := Int.emod_lt_of_pos x hg
  have hrem := Int.emod_nonneg x (Int.ne_of_gt hg)
  rcases gws_cases x g h0 hg with ⟨_, e⟩ | ⟨_, e⟩ <;> rw [e] <;> constructor <;> omega

theorem gws_size_t_fit (x g : Int) (h0 : 0 ≤ x) (hg : 0 < g) (hr : x + g ≤ INT_MAX) :
    gws_size_t x g = gws_int32 x g ∧ gws_int32 x g = gws x g := by
  have hI : INT_MAX = 2147483647 := by decide
  have hb := gws_bounds x g h0 hg
  have he := gws_int32_eq_gws x g h0 hg hr
  refine ⟨?_, he⟩
  unfold gws_size_t
  rw [he]
  exact size_t_of_of_range _ (by omega) (by omega)

/-- C1: with the matrices `G`, `B`, `A` of `main`, the F(2,3) pipeline
`A^T * [(G * g * G^T) ⊙ (B^T * d * B)] * A` equals the directly computed 2x2 valid
convolution, for every 3x3 filter `g` and 4x4 patch `d` over the rationals. -/
theorem winogradTile_eq_directConv (g d : Mat) (i j : Fin 2) :
    winogradTile g d i.val j.val = directConv g d i.val j.val := by
  fin_cases i <;> fin_cases j <;>
    simp [winogradTile, calc_Y, calc_M, filter_transform, data_transform, directConv,
      matMul, transpose, hadamard, rowMajor, G, B, A, List.range_succ] <;>
    ring

/-- C2, as stated, fails: `H = W = 92684` is even and `>= 4` and passes the validation; the
tile counts are `46341` each, and their `int` product `2147488281` does not fit 32 bits, so
the program's `P` is `-2147479015`, neither `>= 1` nor `ceil((H-2)/2) * ceil((W-2)/2)`. -/
theorem geometry_tile_count_overflow :
    valid 92684 92684 = true ∧ (92684 : Int) % 2 = 0 ∧ (4 : Int) ≤ 92684 ∧
    (main .v2 3 1 1 92684 92684).events.filterMap Event.geometry? =
      [geometry_int32 92684 92684] ∧
    (geometry_int32 92684 92684).num_h_tiles = 46341 ∧
    (geometry_int32 92684 92684).num_w_tiles = 46341 ∧
    (geometry_int32 92684 92684).P = -2147479015 ∧
    ¬ 1 ≤ (geometry_int32 92684 92684).P ∧
    (geometry_int32 92684 92684).P ≠
      ⌈(((92684 - 2 : Int) : ℚ) / 2)⌉ * ⌈(((92684 - 2 : Int) : ℚ) / 2)⌉ := by
  have hv : valid 92684 92684 = true := by decide
  have hc := ceil_half_of_even (92684 - 2) (by decide)
  refine ⟨hv, by decide, by decide, main_geometry _ _ _ _ _ hv, ?_, ?_, ?_, ?_, ?_⟩ <;>
    rw [geometry_int32_formula]
  · decide
  · decide
  · decide
  · decide
  · rw [hc]
    decide

/-- C2, amended: for even `H, W >= 4` that are 32-bit `int` values and whose tile count
`((H-2)/2) * ((W-2)/2)` fits a 32-bit `int`, the geometry computed in `main` is
`out_H = H - 2`, `out_W = W - 2`, `num_h_tiles = ceil(out_H / 2)`,
`num_w_tiles = ceil(out_W / 2)` (the ceiling of the exact quotient),
`P = ceil((H-2)/2) * ceil((W-2)/2) >= 1`; the integer division loses nothing, and the 2x2
tiles cover the output exactly. -/
theorem geometry_of_even_shape (v : Version) (K C H W : Int) (hH : 4 ≤ H) (hW : 4 ≤ W)
    (eH : H % 2 = 0) (eW : W % 2 = 0) (bH : H ≤ INT_MAX) (bW : W ≤ INT_MAX)
    (bP : (H - 2) / 2 * ((W - 2) / 2) ≤ INT_MAX) :
    (main v 3 K C H W).events.filterMap Event.geometry? = [geometry_int32 H W] ∧
    (geometry_int32 H W).out_H = H - 2 ∧ (geometry_int32 H W).out_W = W - 2 ∧
    (geometry_int32 H W).num_h_tiles = ⌈(((geometry_int32 H W).out_H : ℚ) / 2)⌉ ∧
    (geometry_int32 H W).num_w_tiles = ⌈(((geometry_int32 H W).out_W : ℚ) / 2)⌉ ∧
    (geometry_int32 H W).P =
      (geometry_int32 H W).num_h_tiles * (geometry_int32 H W).num_w_tiles ∧
    (geometry_int32 H W).P = ⌈(((H - 2 : Int) : ℚ) / 2)⌉ * ⌈(((W - 2 : Int) : ℚ) / 2)⌉ ∧
    1 ≤ (geometry_int32 H W).P ∧
    Int.tdiv (geometry_int32 H W).out_H m * m = (geometry_int32 H W).out_H ∧
    Int.tdiv (geometry_int32 H W).out_W m * m = (geometry_int32 H W).out_W ∧
    2 * (geometry_int32 H W).num_h_tiles = (geometry_int32 H W).out_H ∧
    2 * (geometry_int32 H W).num_w_tiles = (geometry_int32 H W).out_W := by
  have cH := ceil_half_of_even (H - 2) (by omega)
  have cW := ceil_half_of_even (W - 2) (by omega)
  have tH : Int.tdiv (H - 2) 2 = (H - 2) / 2 := Int.tdiv_eq_ediv (by omega) (by decide)
  have tW : Int.tdiv (W - 2) 2 = (W - 2) / 2 := Int.tdiv_eq_ediv (by omega) (by decide)
  have pH : 1 ≤ (H - 2) / 2 := by omega
  have pW : 1 ≤ (W - 2) / 2 := by omega
  refine ⟨main_geometry v K C H W (valid_of_even H W eH eW), ?_⟩
  rw [geometry_int32_eq_geometry H W (by omega) (by omega) bH bW bP,
    geometry_even H W hH hW eH eW]
  simp only [cH, cW, tH, tW, m]
  refine ⟨trivial, trivial, trivial, trivial, trivial, trivial, ?_, ?_, ?_, ?_, ?_⟩
  · nlinarith
  all_goals omega

/-- Witness for the amended C2: the 4x4 image of end-to-end scenario A. -/
theorem geometry_of_even_shape_witness :
    (main .v2 3 1 1 4 4).events.filterMap Event.geometry? = [geometry_int32 4 4] ∧
    (geometry_int32 4 4).out_H = 4 - 2 ∧ (geometry_int32 4 4).out_W = 4 - 2 ∧
    (geometry_int32 4 4).num_h_tiles = ⌈(((geometry_int32 4 4).out_H : ℚ) / 2)⌉ ∧
    (geometry_int32 4 4).num_w_tiles = ⌈(((geometry_int32 4 4).out_W : ℚ) / 2)⌉ ∧
    (geometry_int32 4 4).P =
      (geometry_int32 4 4).num_h_tiles * (geometry_int32 4 4).num_w_tiles ∧
    (geometry_int32 4 4).P = ⌈(((4 - 2 : Int) : ℚ) / 2)⌉ * ⌈(((4 - 2 : Int) : ℚ) / 2)⌉ ∧
    1 ≤ (geometry_int32 4 4).P ∧
    Int.tdiv (geometry_int32 4 4).out_H m * m = (geometry_int32 4 4).out_H ∧
    Int.tdiv (geometry_int32 4 4).out_W m * m = (geometry_int32 4 4).out_W ∧
    2 * (geometry_int32 4 4).num_h_tiles = (geometry_int32 4 4).out_H ∧
    2 * (geometry_int32 4 4).num_w_tiles = (geometry_int32 4 4).out_W :=
  geometry_of_even_shape .v2 1 1 4 4 (by decide) (by decide) (by decide) (by decide)
    (by decide) (by decide) (by decide)

/-- C3: for `extent >= 0`, `g > 0` and `extent + g` inside the 32-bit `int` range, the 32-bit
evaluation of `gws(extent, g)` agrees with the evaluation on integers and is the smallest
multiple of `g` that is `>= extent`: it is `>= extent`, its remainder by `g` is zero, it
exceeds `extent` by less than `g`, no multiple of `g` lies between, and an extent that is
already a multiple of `g` is returned unchanged. -/
theorem gws_smallest_multiple (extent g : Int) (h0 : 0 ≤ extent) (hg : 0 < g)
    (hr : extent + g ≤ INT_MAX) :
    gws_int32 extent g = gws extent g ∧
    extent ≤ gws_int32 extent g ∧
    Int.tmod (gws_int32 extent g) g = 0 ∧
    gws_int32 extent g - extent < g ∧
    (∀ n : Int, Int.tmod n g = 0 → extent ≤ n → gws_int32 extent g ≤ n) ∧
    (Int.tmod extent g = 0 → gws_int32 extent g = extent) := by
  have hlt := Int.emod_lt_of_pos extent hg
  have hrem := Int.emod_nonneg extent (Int.ne_of_gt hg)
  have hsplit := Int.ediv_add_emod extent g
  have hmod : Int.tmod extent g = extent % g := Int.tmod_eq_emod h0 (Int.le_of_lt hg)
  rw [gws_int32_eq_gws extent g h0 hg hr, hmod]
  rcases gws_cases extent g h0 hg with ⟨hz, e⟩ | ⟨hp, e⟩
  · rw [e]
    refine ⟨rfl, le_refl _, by omega, by omega, fun n _ hn => hn, fun _ => rfl⟩
  · rw [e]
    have hval : extent - extent % g + g = g * (extent / g + 1) := by
      rw [Int.mul_add, Int.mul_one]
      omega
    refine ⟨rfl, by omega, ?_, by omega, ?_, fun hz => by omega⟩
    · rw [hval]
      exact Int.tmod_eq_zero_of_dvd (Dvd.intro _ rfl)
    · intro n hn hle
      obtain ⟨k, rfl⟩ := Int.dvd_of_tmod_eq_zero hn
      rw [hval]
      have hk : extent / g + 1 ≤ k := by
        by_contra hcon
        have : k ≤ extent / g := by omega
        have := Int.mul_le_mul_of_nonneg_left this (Int.le_of_lt hg)
        omega
      exact Int.mul_le_mul_of_nonneg_left hk (Int.le_of_lt hg)

/-- Witness for C3: `gws(5, 4) = 8`. -/
theorem gws_smallest_multiple_witness :
    gws_int32 5 4 = gws 5 4 ∧
    (5 : Int) ≤ gws_int32 5 4 ∧
    Int.tmod (gws_int32 5 4) 4 = 0 ∧
    gws_int32 5 4 - 5 < 4 ∧
    (∀ n : Int, Int.tmod n 4 = 0 → 5 ≤ n → gws_int32 5 4 ≤ n) ∧
    (Int.tmod 5 4 = 0 → gws_int32 5 4 = 5) :=
  gws_smallest_multiple 5 4 (by decide) (by decide) (by decide)

/-- C6: started with two file arguments (`argc = 3`), for every parsed `K, C, H, W`, positive
or negative, the run takes the invalid-shape path (diagnostic printed, no geometry computed,
output file never opened or written, exit status 0) if and only if `H` is odd or `W` is odd. -/
theorem invalid_shape_path_iff (v : Version) (K C H W : Int) :
    invalidShapePath (main v 3 K C H W) = true ↔ (Odd H ∨ Odd W) := by
  have hv := valid_iff H W
  rw [Int.odd_iff, Int.odd_iff]
  by_cases h : valid H W = true
  · have hno : ¬ (H % 2 = 1 ∨ W % 2 = 1) := by
      have := hv.mp h
      omega
    simp [main, h, invalidShapePath, hno, uploadCommands, kernelCommands]
  · have hodd : H % 2 = 1 ∨ W % 2 = 1 := by
      by_contra hcon
      exact h (hv.mpr (by omega))
    simp [main, h, invalidShapePath, hodd, Event.isGeometry, Event.isOutputFile]

/-- C8: in a run that passes validation the calls on the queue are the five uploads, then
`filter_transform`, `data_transform`, `calc_M`, `calc_Y`, then `finish`, then the read of `Y`:
both transforms are enqueued before `calc_M`, `calc_M` before `calc_Y`, `finish` after `calc_Y`
and before the read; with the bindings `filter_transform(filters, G -> U)`,
`data_transform(image, B -> V)`, `calc_M(U, V -> M)`, `calc_Y(M, A -> Y)` every buffer a
command reads was written by an upload or an earlier kernel. -/
theorem queue_order (v : Version) (K C H W : Int) (hv : valid H W = true) :
    (main v 3 K C H W).events.filterMap Event.command? = commands K C H W ∧
    (main v 3 K C H W).queueTags =
      [.write .g_filters, .write .g_data, .write .g_G, .write .g_B, .write .g_A,
       .kernel .filter_transform, .kernel .data_transform, .kernel .calc_M, .kernel .calc_Y,
       .finish, .read .g_Y] ∧
    before (.kernel .filter_transform) (.kernel .calc_M) (main v 3 K C H W).queueTags = true ∧
    before (.kernel .data_transform) (.kernel .calc_M) (main v 3 K C H W).queueTags = true ∧
    before (.kernel .calc_M) (.kernel .calc_Y) (main v 3 K C H W).queueTags = true ∧
    before (.kernel .calc_Y) .finish (main v 3 K C H W).queueTags = true ∧
    before .finish (.read .g_Y) (main v 3 K C H W).queueTags = true ∧
    (kernelCommands K C H W).map (fun c => (c.tag, c.reads, c.writes)) =
      [(.kernel .filter_transform, [.g_filters, .g_G], [.g_U]),
       (.kernel .data_transform, [.g_data, .g_B], [.g_V]),
       (.kernel .calc_M, [.g_U, .g_V], [.g_M]),
       (.kernel .calc_Y, [.g_M, .g_A], [.g_Y])] ∧
    readsAreWritten [] (commands K C H W) = true := by
  have hq : (main v 3 K C H W).events.filterMap Event.command? = commands K C H W := by
    simp [main, hv, commands, uploadCommands, kernelCommands, Event.command?]
  have ht : (main v 3 K C H W).queueTags =
      [.write .g_filters, .write .g_data, .write .g_G, .write .g_B, .write .g_A,
       .kernel .filter_transform, .kernel .data_transform, .kernel .calc_M, .kernel .calc_Y,
       .finish, .read .g_Y] := by
    rw [Run.queueTags, hq]
    rfl
  rw [ht]
  exact ⟨hq, rfl, by decide, by decide, by decide, by decide, by decide, rfl, rfl⟩

/-- Witness for C8: the shape `K = 1, C = 1, H = 4, W = 4`, in `winograd_gpu_version2.cpp`. -/
theorem queue_order_witness :
    (main .v2 3 1 1 4 4).events.filterMap Event.command? = commands 1 1 4 4 ∧
    (main .v2 3 1 1 4 4).queueTags =
      [.write .g_filters, .write .g_data, .write .g_G, .write .g_B, .write .g_A,
       .kernel .filter_transform, .kernel .data_transform, .kernel .calc_M, .kernel .calc_Y,
       .finish, .read .g_Y] ∧
    before (.kernel .filter_transform) (.kernel .calc_M) (main .v2 3 1 1 4 4).queueTags = true ∧
    before (.kernel .data_transform) (.kernel .calc_M) (main .v2 3 1 1 4 4).queueTags = true ∧
    before (.kernel .calc_M) (.kernel .calc_Y) (main .v2 3 1 1 4 4).queueTags = true ∧
    before (.kernel .calc_Y) .finish (main .v2 3 1 1 4 4).queueTags = true ∧
    before .finish (.read .g_Y) (main .v2 3 1 1 4 4).queueTags = true ∧
    (kernelCommands 1 1 4 4).map (fun c => (c.tag, c.reads, c.writes)) =
      [(.kernel .filter_transform, [.g_filters, .g_G], [.g_U]),
       (.kernel .data_transform, [.g_data, .g_B], [.g_V]),
       (.kernel .calc_M, [.g_U, .g_V], [.g_M]),
       (.kernel .calc_Y, [.g_M, .g_A], [.g_Y])] ∧
    readsAreWritten [] (commands 1 1 4 4) = true :=
  queue_order .v2 1 1 4 4 (by decide)

/-- C7, as stated, fails: at `K = C = P = 1` the program computes and prints `472`, while
`K*C*60 + C*P*112 + 16*K*P*(2C-1) + K*P*112` is `300`. -/
theorem flop_ne_stated_formula :
    ¬ ∀ K C P : Int, 1 ≤ K → 1 ≤ C → 1 ≤ P →
        K * C * 60 + C * P * 112 + 16 * K * P * (2 * C - 1) + K * P * 112 ≤ INT_MAX →
        flop_int32 K C P =
          K * C * 60 + C * P * 112 + 16 * K * P * (2 * C - 1) + K * P * 112 := by
  intro h
  exact absurd (h 1 1 1 (by decide) (by decide) (by decide) (by decide)) (by decide)

/-- C7, amended: for `K, C, P >= 1` whose operation count fits a 32-bit `int`, the value that
`report_winograd_statistics` computes and prints is
`K*C*120 + C*P*224 + 16*K*P*(2C-1) + K*P*112` exactly. -/
theorem flop_closed_form (K C P : Int) (hK : 1 ≤ K) (hC : 1 ≤ C) (hP : 1 ≤ P)
    (hT : K * C * 120 + C * P * 224 + 16 * K * P * (2 * C - 1) + K * P * 112 ≤ INT_MAX) :
    flop_int32 K C P =
      K * C * 120 + C * P * 224 + 16 * K * P * (2 * C - 1) + K * P * 112 := by
  rw [flop_int32_eq_flop K C P hK hC hP hT, flop_eq]

/-- Witness for the amended C7: `K = 2, C = 3, P = 4`. -/
theorem flop_closed_form_witness :
    flop_int32 2 3 4 = 2 * 3 * 120 + 3 * 4 * 224 + 16 * 2 * 4 * (2 * 3 - 1) + 2 * 4 * 112 :=
  flop_closed_form 2 3 4 (by decide) (by decide) (by decide) (by decide)

/-- C9 at the input `C = 1, H = 4, W = 6` with the image values `0, 1, ..., 23`: the loader
stores the value of row `i`, column `j` at offset `i*4 + j`, not at `i*6 + j`; offset 4 ends
up holding value 6, the values 4, 5, 10, 11, 16 and 17 are overwritten, and the offsets
18 to 23 are never written, so the array is not the file's values in row-major order. -/
theorem loadImage_row_stride :
    loadImage 1 4 6 (fun n => n) =
      some [some 0, some 1, some 2, some 3, some 6, some 7, some 8, some 9,
            some 12, some 13, some 14, some 15, some 18, some 19, some 20, some 21,
            some 22, some 23, none, none, none, none, none, none] ∧
    loadImage 1 4 6 (fun n => n) ≠ some ((List.range (1 * 4 * 6)).map some) := by
  decide

/-- C10 at the input `K = 1, C = 1, H = 4, W = 4`: `winograd_gpu.cpp` writes the header
`1 1 4 4`, which is `K C H W`, although `out_H = out_W = 2`; `winograd_gpu_version2.cpp`
writes `1 1 2 2`. -/
theorem header_of_v1 :
    Event.writeHeader [1, 1, 4, 4] ∈ (main .v1 3 1 1 4 4).events ∧
    (geometry 4 4).out_H = 2 ∧ (geometry 4 4).out_W = 2 ∧
    outputHeader .v1 1 1 4 4 ≠ [1, 1, (geometry 4 4).out_H, (geometry 4 4).out_W] ∧
    outputHeader .v2 1 1 4 4 = [1, 1, (geometry 4 4).out_H, (geometry 4 4).out_W] := by
  have hv : valid 4 4 = true := by decide
  have hg := geometry_even 4 4 (by decide) (by decide) (by decide) (by decide)
  refine ⟨?_, ?_, ?_, ?_, ?_⟩
  · simp [main, hv, outputHeader]
  · rw [hg]
    decide
  · rw [hg]
    decide
  · rw [hg]
    decide
  · rw [hg]
    decide

/-- C11: for two valid shapes (`K, C >= 1`; `H, W` even and `>= 2`) of which the second is
at least the first in each of `K, C, H, W` (in particular: equal in three of them and larger
in the fourth), each of the nine buffer element counts of the second shape is at least the
count of the first, over the integers. -/
theorem buffer_elements_monotone (K C H W K' C' H' W' : Int)
    (hK : 1 ≤ K) (hC : 1 ≤ C) (hH : 2 ≤ H) (hW : 2 ≤ W)
    (eH : H % 2 = 0) (eW : W % 2 = 0) (eH' : H' % 2 = 0) (eW' : W' % 2 = 0)
    (lK : K ≤ K') (lC : C ≤ C') (lH : H ≤ H') (lW : W ≤ W') :
    List.Forall₂ (fun a b => a ≤ b) (bufferBytes K C H W).elements
      (bufferBytes K' C' H' W').elements := by
  rw [elements_bufferBytes, elements_bufferBytes,
    geometry_even_two H W hH hW, geometry_even_two H' W' (by omega) (by omega)]
  obtain ⟨a, ha⟩ : ∃ a, H = 2 * a + 2 := ⟨(H - 2) / 2, by omega⟩
  obtain ⟨b, hb⟩ : ∃ b, W = 2 * b + 2 := ⟨(W - 2) / 2, by omega⟩
  obtain ⟨a', ha'⟩ : ∃ a', H' = 2 * a' + 2 := ⟨(H' - 2) / 2, by omega⟩
  obtain ⟨b', hb'⟩ : ∃ b', W' = 2 * b' + 2 := ⟨(W' - 2) / 2, by omega⟩
  have qa : (H - 2) / 2 = a := by omega
  have qb : (W - 2) / 2 = b := by omega
  have qa' : (H' - 2) / 2 = a' := by omega
  have qb' : (W' - 2) / 2 = b' := by omega
  have pa : 0 ≤ a := by omega
  have pb : 0 ≤ b := by omega
  have la : a ≤ a' := by omega
  have lb : b ≤ b' := by omega
  have hKC : K * C ≤ K' * C' := mul_le_mul lK lC (by omega) (by omega)
  have hHW : H * W ≤ H' * W' := mul_le_mul lH lW (by omega) (by omega)
  have hP : a * b ≤ a' * b' := mul_le_mul la lb pb (by omega)
  have hO : (H - 2) * (W - 2) ≤ (H' - 2) * (W' - 2) :=
    mul_le_mul (by omega) (by omega) (by omega) (by omega)
  have hCHW : C * (H * W) ≤ C' * (H' * W') :=
    mul_le_mul lC hHW (mul_nonneg (by omega) (by omega)) (by omega)
  have hCP : C * (a * b) ≤ C' * (a' * b') :=
    mul_le_mul lC hP (mul_nonneg pa pb) (by omega)
  have hKP : K * (a * b) ≤ K' * (a' * b') :=
    mul_le_mul lK hP (mul_nonneg pa pb) (by omega)
  have hKO : K * ((H - 2) * (W - 2)) ≤ K' * ((H' - 2) * (W' - 2)) :=
    mul_le_mul lK hO (mul_nonneg (by omega) (by omega)) (by omega)
  simp only [qa, qb, qa', qb', List.forall₂_cons, List.Forall₂.nil, and_true]
  refine ⟨by linarith, by linarith, le_refl _, le_refl _, le_refl _, by linarith, by linarith,
    by linarith, by linarith⟩

/-- Witness for C11: from `K = 1, C = 1, H = 2, W = 4` to the same shape with `H = 4`. -/
theorem buffer_elements_monotone_witness :
    List.Forall₂ (fun a b => a ≤ b) (bufferBytes 1 1 2 4).elements
      (bufferBytes 1 1 4 4).elements :=
  buffer_elements_monotone 1 1 2 4 1 1 4 4 (by decide) (by decide) (by decide) (by decide)
    (by decide) (by decide) (by decide) (by decide) (by decide) (by decide) (by decide)
    (by decide)

/-- C12, as stated, fails: the shape `K = 0, C = 0, H = 2, W = 2` passes the validation and
reaches the geometry computation, with `K` and `C` not positive and `P = 0`; and the shape
`K = 1, C = 1, H = 92684, W = 92684` reaches it with `P = -2147479015`. -/
theorem validation_admits_degenerate_shape :
    (main .v2 3 0 0 2 2).events.any Event.isGeometry = true ∧
    (geometry 2 2).P = 0 ∧
    ¬ ((0 : Int) < 0 ∧ (0 : Int) < 0 ∧ (0 : Int) < 2 ∧ (0 : Int) < 2 ∧
        (2 : Int) % 2 = 0 ∧ (2 : Int) % 2 = 0 ∧ 1 ≤ (geometry 2 2).P) ∧
    (main .v2 3 0 0 2 2).events.filterMap Event.geometry? = [geometry_int32 2 2] ∧
    (geometry_int32 2 2).P = 0 ∧
    (main .v2 3 1 1 92684 92684).events.any Event.isGeometry = true ∧
    (main .v2 3 1 1 92684 92684).events.filterMap Event.geometry? =
      [geometry_int32 92684 92684] ∧
    (geometry_int32 92684 92684).P = -2147479015 := by
  have hv : valid 2 2 = true := by decide
  have hv2 : valid 92684 92684 = true := by decide
  have hP : (geometry 2 2).P = 0 := by
    rw [geometry_formula]
    decide
  refine ⟨?_, hP, ?_, main_geometry _ _ _ _ _ hv, ?_, ?_, main_geometry _ _ _ _ _ hv2, ?_⟩
  · simp [main, hv, Event.isGeometry]
  · rw [hP]
    decide
  · rw [geometry_int32_formula]
    decide
  · simp [main, hv2, Event.isGeometry]
  · rw [geometry_int32_formula]
    decide

/-- C12, amended: a shape that passes the validation and reaches the geometry computation has
`H` and `W` even, and `P` is the 32-bit product `num_h_tiles * num_w_tiles`; `P >= 1` follows
when moreover `4 <= H, W <= INT_MAX` and the tile count `((H-2)/2) * ((W-2)/2)` fits a 32-bit
`int`, none of which the program checks (nor the sign of `K` and `C`). -/
theorem reached_geometry_invariants (v : Version) (K C H W : Int)
    (h : (main v 3 K C H W).events.any Event.isGeometry = true) :
    H % 2 = 0 ∧ W % 2 = 0 ∧
    (main v 3 K C H W).events.filterMap Event.geometry? = [geometry_int32 H W] ∧
    (geometry_int32 H W).P =
      mul32 (geometry_int32 H W).num_h_tiles (geometry_int32 H W).num_w_tiles ∧
    (4 ≤ H → 4 ≤ W → H ≤ INT_MAX → W ≤ INT_MAX →
      (H - 2) / 2 * ((W - 2) / 2) ≤ INT_MAX → 1 ≤ (geometry_int32 H W).P) := by
  have hv : valid H W = true := by
    by_contra hn
    simp [main, hn, Event.isGeometry] at h
  obtain ⟨eH, eW⟩ := (valid_iff H W).mp hv
  refine ⟨eH, eW, main_geometry v K C H W hv, rfl, fun hH hW bH bW bP => ?_⟩
  rw [geometry_int32_eq_geometry H W (by omega) (by omega) bH bW bP,
    geometry_even H W hH hW eH eW]
  have pH : 1 ≤ (H - 2) / 2 := by omega
  have pW : 1 ≤ (W - 2) / 2 := by omega
  show 1 ≤ (H - 2) / 2 * ((W - 2) / 2)
  nlinarith

/-- Witness for the amended C12: the shape `K = 1, C = 1, H = 4, W = 4`. -/
theorem reached_geometry_invariants_witness :
    (4 : Int) % 2 = 0 ∧ (4 : Int) % 2 = 0 ∧
    (main .v2 3 1 1 4 4).events.filterMap Event.geometry? = [geometry_int32 4 4] ∧
    (geometry_int32 4 4).P =
      mul32 (geometry_int32 4 4).num_h_tiles (geometry_int32 4 4).num_w_tiles ∧
    ((4 : Int) ≤ 4 → (4 : Int) ≤ 4 → (4 : Int) ≤ INT_MAX → (4 : Int) ≤ INT_MAX →
      ((4 : Int) - 2) / 2 * (((4 : Int) - 2) / 2) ≤ INT_MAX → 1 ≤ (geometry_int32 4 4).P) :=
  reached_geometry_invariants .v2 1 1 4 4 (by
    have hv : valid 4 4 = true := by decide
    simp [main, hv, Event.isGeometry])

/-- C13, as stated, fails: `gws(5, -1)` returns `5` and `gws(5, -2)` returns `2` in both
programs, `gws(-5, -2)` returns `-6` in `winograd_gpu.cpp` and `2^64 - 6` in
`winograd_gpu_version2.cpp`; no call fails, and a call with group size `0` divides by zero
rather than reporting an error. -/
theorem gws_call_no_partition_error :
    gws_call .v1 5 (-1) = .returned 5 ∧ gws_call .v2 5 (-1) = .returned 5 ∧
    gws_call .v1 5 (-2) = .returned 2 ∧ gws_call .v2 5 (-2) = .returned 2 ∧
    gws_call .v1 (-5) (-2) = .returned (-6) ∧
    gws_call .v2 (-5) (-2) = .returned 18446744073709551610 ∧
    gws_call .v1 5 (-1) ≠ .invalidPartitionError ∧
    gws_call .v2 5 (-1) ≠ .invalidPartitionError ∧
    gws_call .v1 5 0 = .undefinedBehaviour ∧ gws_call .v2 5 0 = .undefinedBehaviour := by
  decide

/-- C13, amended: `gws` has no check of the group size and no error path; called with a group
size that is not `> 0` it never fails with an `InvalidPartitionError`: with group size `0`
its first operation divides by zero, and with a negative group size it either has no defined
result (`INT_MIN % -1`, or an overflowing sum) or returns a value. -/
theorem gws_call_of_nonpositive (v : Version) (extent g : Int) (hg : g ≤ 0) :
    gws_call v extent g ≠ .invalidPartitionError ∧
    (g = 0 → gws_call v extent g = .undefinedBehaviour) ∧
    (gws_call v extent g = .undefinedBehaviour ∨
      (g < 0 ∧ ∃ x, gws_call v extent g = .returned x)) := by
  by_cases h0 : g = 0
  · simp [gws_call, h0]
  · have hneg : g < 0 := by omega
    by_cases h1 : extent = INT_MIN ∧ g = -1
    · simp [gws_call, h0, h1]
    · by_cases h2 : Int.tmod extent g ≠ 0 ∧
          ¬ (INT_MIN ≤ extent + g ∧ extent + g ≤ INT_MAX)
      · have e : gws_call v extent g = .undefinedBehaviour := by
          unfold gws_call
          rw [if_neg h0, if_neg h1, if_pos h2]
        rw [e]
        exact ⟨by simp, fun hz => absurd hz h0, Or.inl rfl⟩
      · have e : gws_call v extent g =
            (match v with
              | .v1 => .returned (gws_int32 extent g)
              | .v2 => .returned (size_t_of (gws_int32 extent g))) := by
          unfold gws_call
          rw [if_neg h0, if_neg h1, if_neg h2]
        rw [e]
        cases v
        · exact ⟨by simp, fun hz => absurd hz h0, Or.inr ⟨hneg, _, rfl⟩⟩
        · exact ⟨by simp, fun hz => absurd hz h0, Or.inr ⟨hneg, _, rfl⟩⟩

/-- Witness for the amended C13: `gws(5, -2)` in `winograd_gpu_version2.cpp`. -/
theorem gws_call_of_nonpositive_witness :
    gws_call .v2 5 (-2) ≠ .invalidPartitionError ∧
    ((-2 : Int) = 0 → gws_call .v2 5 (-2) = .undefinedBehaviour) ∧
    (gws_call .v2 5 (-2) = .undefinedBehaviour ∨
      ((-2 : Int) < 0 ∧ ∃ x, gws_call .v2 5 (-2) = .returned x)) :=
  gws_call_of_nonpositive .v2 5 (-2) (by decide)

/-- C14, as stated, fails at extent `0`: `gws(0, 8)` is `0`, not `8`; and it fails when the
sum overflows: the 32-bit evaluation of `gws(1, 2147483647)` is `-2147483647`. -/
theorem gws_zero_extent :
    (0 : Int) ≤ 0 ∧ (0 : Int) < 8 ∧ gws 0 8 = 0 ∧ gws 0 8 ≠ 8 ∧
    gws_int32 0 8 = 0 ∧ gws_int32 0 8 ≠ 8 ∧
    (1 : Int) < 2147483647 ∧ gws_int32 1 2147483647 = -2147483647 ∧
    gws_int32 1 2147483647 ≠ 2147483647 := by
  decide

/-- C14, amended: for every group size `g > 0` and every extent with `0 < extent < g` and
`extent + g` inside the 32-bit `int` range, `gws(extent, g)` equals `g`; the extent `0` is
returned unchanged. -/
theorem gws_of_lt_group (extent g : Int) (h0 : 0 ≤ extent) (hg : 0 < g) (hlt : extent < g)
    (hr : extent + g ≤ INT_MAX) :
    (0 < extent → gws_int32 extent g = g ∧ gws_size_t extent g = g) ∧
    (extent = 0 → gws_int32 extent g = 0 ∧ gws_size_t extent g = 0) := by
  have hmod : extent % g = extent := Int.emod_eq_of_lt h0 hlt
  obtain ⟨f1, f2⟩ := gws_size_t_fit extent g h0 hg hr
  rw [f1, f2]
  rcases gws_cases extent g h0 hg with ⟨hz, e⟩ | ⟨hp, e⟩
  · exact ⟨fun hpos => by omega, fun hz0 => by rw [e, hz0]; exact ⟨rfl, rfl⟩⟩
  · refine ⟨fun _ => ?_, fun hz0 => by omega⟩
    rw [e, hmod]
    constructor <;> omega

/-- Witness for the amended C14: `gws(3, 8) = 8`. -/
theorem gws_of_lt_group_witness :
    ((0 : Int) < 3 → gws_int32 3 8 = 8 ∧ gws_size_t 3 8 = 8) ∧
    ((3 : Int) = 0 → gws_int32 3 8 = 0 ∧ gws_size_t 3 8 = 0) :=
  gws_of_lt_group 3 8 (by decide) (by decide) (by decide) (by decide)

/-- C15 at the input `C = 1, H = 6, W = 4`: the array `data` has `24` elements, the image
index of `(c, i, j) = (0, 4, 0)` is `24` and that of `(0, 5, 3)` is `33`, both outside the
array, so the loader stores past its end. -/
theorem imageIndex_out_of_bounds :
    imageIndex 6 4 0 4 0 = 24 ∧ imageIndex 6 4 0 5 3 = 33 ∧
    ¬ imageIndex 6 4 0 4 0 < 1 * 6 * 4 ∧ ¬ imageIndex 6 4 0 5 3 < 1 * 6 * 4 ∧
    (0, 4, 0) ∈ imageLoopOrder 1 6 4 ∧ (0, 5, 3) ∈ imageLoopOrder 1 6 4 ∧
    loadImage 1 6 4 (fun n => n) = none := by
  decide

/-- C16: for `K, C, P >= 1` whose exact operation count
`K*C*120 + C*P*224 + 16*K*P*(2C-1) + K*P*112` is at most `2^31 - 1`, the 32-bit evaluation of
`flop` overflows in no intermediate step and yields exactly that count; and for some
`K, C, P >= 1` with a larger exact count (here `512, 512, 512`) the wrapped 32-bit value
differs from the count. -/
theorem flop_int32_exact (K C P : Int) (hK : 1 ≤ K) (hC : 1 ≤ C) (hP : 1 ≤ P)
    (hT : K * C * 120 + C * P * 224 + 16 * K * P * (2 * C - 1) + K * P * 112 ≤ 2 ^ 31 - 1) :
    flop_checked K C P =
      some (K * C * 120 + C * P * 224 + 16 * K * P * (2 * C - 1) + K * P * 112) ∧
    flop_int32 K C P =
      K * C * 120 + C * P * 224 + 16 * K * P * (2 * C - 1) + K * P * 112 ∧
    ∃ K' C' P' : Int, 1 ≤ K' ∧ 1 ≤ C' ∧ 1 ≤ P' ∧
      2 ^ 31 - 1 < K' * C' * 120 + C' * P' * 224 + 16 * K' * P' * (2 * C' - 1) + K' * P' * 112 ∧
      flop_int32 K' C' P' ≠
        K' * C' * 120 + C' * P' * 224 + 16 * K' * P' * (2 * C' - 1) + K' * P' * 112 := by
  refine ⟨?_, ?_, 512, 512, 512, by decide, by decide, by decide, by decide, by decide⟩
  · rw [flop_checked_eq_flop K C P hK hC hP hT, flop_eq]
  · rw [flop_int32_eq_flop K C P hK hC hP hT, flop_eq]

/-- Witness for C16: `K = 2, C = 3, P = 4`, with count `4944`. -/
theorem flop_int32_exact_witness :
    flop_checked 2 3 4 =
      some (2 * 3 * 120 + 3 * 4 * 224 + 16 * 2 * 4 * (2 * 3 - 1) + 2 * 4 * 112) ∧
    flop_int32 2 3 4 =
      2 * 3 * 120 + 3 * 4 * 224 + 16 * 2 * 4 * (2 * 3 - 1) + 2 * 4 * 112 ∧
    ∃ K' C' P' : Int, 1 ≤ K' ∧ 1 ≤ C' ∧ 1 ≤ P' ∧
      2 ^ 31 - 1 < K' * C' * 120 + C' * P' * 224 + 16 * K' * P' * (2 * C' - 1) + K' * P' * 112 ∧
      flop_int32 K' C' P' ≠
        K' * C' * 120 + C' * P' * 224 + 16 * K' * P' * (2 * C' - 1) + K' * P' * 112 :=
  flop_int32_exact 2 3 4 (by decide) (by decide) (by decide) (by decide)

end Winograd
